import Mathlib

/-!
Verification of the SOUP-report generator `scripts/cook_soup.py`.

The Python program is shallowly embedded below.  Strings are modelled by
Lean `String` (a list of unicode scalar values, as in Python), integers by
`Nat`/`Int` (Python integers are unbounded), timestamps by `Int` seconds,
and the one floating-point division in the program by exact rational
division.  Python's `str.lower`/`str.casefold` are modelled by their
common ASCII restriction, and `str.strip` strips the ASCII whitespace
characters.  Fallible code returns `Except`, and network responses are
passed in as explicit oracle arguments.
-/

namespace CookSoup

/-! ### Python string primitives -/

/-- ASCII lower-casing of one character.  Models both `str.lower` and
`str.casefold`, which agree with this map on ASCII text. -/
def pyLowerChar (c : Char) : Char :=
  if 65 ≤ c.toNat ∧ c.toNat ≤ 90 then Char.ofNat (c.toNat + 32) else c

/-- Model of `str.lower` (and of `str.casefold`, see `pyLowerChar`). -/
def pyLower (s : String) : String :=
  ⟨s.data.map pyLowerChar⟩

/-- Model of `str.casefold`; on the ASCII fragment modelled here it is the
same character map as `str.lower`. -/
def pyCasefold (s : String) : String :=
  ⟨s.data.map pyLowerChar⟩

/-- Code points of the whitespace characters stripped by Python's
`str.strip()` (ASCII fragment: space, tab, newline, carriage return,
vertical tab, form feed). -/
def pyIsSpaceNat (n : Nat) : Bool :=
  n = 32 || n = 9 || n = 10 || n = 13 || n = 11 || n = 12

/-- Whitespace test on characters, by code point. -/
def pyIsSpace (c : Char) : Bool :=
  pyIsSpaceNat c.toNat

/-- Strip `pyIsSpace` characters from both ends of a character list. -/
def pyStripList (l : List Char) : List Char :=
  ((l.dropWhile pyIsSpace).reverse.dropWhile pyIsSpace).reverse

/-- Model of `str.strip()`. -/
def pyStrip (s : String) : String :=
  ⟨pyStripList s.data⟩

/-- Model of `s.lstrip("v")`: remove every leading `'v'`. -/
def pyLstripV (l : List Char) : List Char :=
  l.dropWhile (fun c => c = 'v')

/-- Model of `s.rstrip(".git")`: remove trailing characters drawn from the
set `{'.', 'g', 'i', 't'}` (Python's `rstrip` takes a character set). -/
def pyRstripGit (s : String) : String :=
  ⟨(s.data.reverse.dropWhile (fun c => c = '.' || c = 'g' || c = 'i' || c = 't')).reverse⟩

/-- Python string comparison `a < b`: lexicographic on code points. -/
def pyStrLt : List Char → List Char → Bool
  | [], [] => false
  | [], _ :: _ => true
  | _ :: _, [] => false
  | x :: xs, y :: ys =>
    if x < y then true else if y < x then false else pyStrLt xs ys

/-! ### License registry (`License`, `LICENSE_MAPPING`, `get_license_object`) -/

/-- Metadata about an open-source license, as in the Python `License` class. -/
structure License where
  requires_license_file : Bool
  is_non_commercial_only : Bool
deriving DecidableEq, Repr

/-- The module-level dictionary `LICENSE_MAPPING`, as an association list in
the source's insertion order. -/
def LICENSE_MAPPING : List (String × License) :=
  [ ("apache-2.0",   ⟨true,  false⟩),
    ("mit",          ⟨true,  false⟩),
    ("bsd",          ⟨true,  false⟩),
    ("bsd-2-clause", ⟨true,  false⟩),
    ("bsd-3-clause", ⟨true,  false⟩),
    ("gpl-2.0",      ⟨true,  false⟩),
    ("gpl-3.0",      ⟨true,  false⟩),
    ("lgpl-2.1",     ⟨true,  false⟩),
    ("lgpl-3.0",     ⟨true,  false⟩),
    ("mpl-2.0",      ⟨true,  false⟩),
    ("cc0-1.0",      ⟨false, false⟩),
    ("isc",          ⟨true,  false⟩),
    ("agpl-3.0",     ⟨true,  false⟩),
    ("unlicense",    ⟨true,  false⟩),
    ("cc-by-nc-4.0", ⟨true,  true⟩),
    ("unknown",      ⟨false, false⟩) ]

/-- Model of `get_license_object`: normalize the identifier and look it up, falling
back to the registry's `"unknown"` entry `License(False, False)`. -/
def get_license_object (license_id : String) : License :=
  (LICENSE_MAPPING.lookup (pyStrip (pyCasefold license_id))).getD ⟨false, false⟩

/-- Model of `normalize_license`: `"unknown"` for a falsy (empty) string, otherwise
`casefold().strip()`. -/
def normalize_license (license_str : String) : String :=
  if license_str = "" then "unknown" else pyStrip (pyCasefold license_str)

/-! ### Common dependency record -/

/-- The record dictionaries produced by the ingestion adapters and consumed
by `main` (keys `name`, `version`, `url`, `license`). -/
structure DependencyRecord where
  name : String
  version : String
  url : String
  license : String
deriving DecidableEq, Repr

/-- A record after the enrichment loop in `main` added `risk_level`,
`license_req` and `notes`. -/
structure EnrichedRecord where
  name : String
  version : String
  url : String
  license : String
  risk_level : String
  license_req : String
  notes : String
deriving DecidableEq, Repr

/-! ### Adapter B: `process_npm_licenses` -/

/-- The `licenses` field of one `license-checker` entry: a string or a list
of strings (the shapes the adapter handles). -/
inductive NpmLicenses where
  | str (s : String)
  | list (l : List String)
deriving DecidableEq, Repr

/-- One value of the npm input mapping.  `none` models an absent key. -/
structure NpmInfo where
  licenses : Option NpmLicenses
  repository : Option String
  url : Option String
deriving DecidableEq, Repr

/-- Model of `a or b` for Python strings where `a` is `info.get(k)`
(`None` when the key is absent): first truthy (non-empty) value wins. -/
def pyOrStr (a : Option String) (b : String) : String :=
  match a with
  | some s => if s = "" then b else s
  | none => b

/-- The combination `if "@" in package_key: package_key.rsplit("@", 1)`:
split a character list at the LAST occurrence of `sep` (`none` when `sep`
does not occur).  If the tail splits, the head belongs to the left part;
otherwise the head itself is the last (and only) separator candidate. -/
def rsplitOnce (sep : Char) : List Char → Option (List Char × List Char)
  | [] => none
  | c :: rest =>
    match rsplitOnce sep rest with
    | some (n, v) => some (c :: n, v)
    | none => if c = sep then some ([], rest) else none

/-- The license value the adapter passes to `normalize_license`: a list is
replaced by its first element when non-empty; an empty list is falsy, so
`normalize_license` yields `"unknown"` for it. -/
def npmLicenseValue : NpmLicenses → String ⊕ Unit
  | .list (x :: _) => .inl x
  | .list [] => .inr ()   -- an empty list survives the isinstance test and stays falsy
  | .str s => .inl s

/-- Normalization applied to `npmLicenseValue` (the `Unit` case is the falsy
empty list, normalized to `"unknown"`). -/
def npmNormalizedLicense (f : NpmLicenses) : String :=
  match npmLicenseValue f with
  | .inl s => normalize_license s
  | .inr () => "unknown"

/-- Body of the `process_npm_licenses` loop for one `(package_key, info)`
item of the input mapping. -/
def npmRecordOf (package_key : String) (info : NpmInfo) : DependencyRecord :=
  let nv : String × String :=
    match rsplitOnce '@' package_key.data with
    | some (n, v) => (⟨n⟩, ⟨v⟩)
    | none => (package_key, "unknown")
  { name := nv.1
    version := nv.2
    url := pyOrStr info.repository (pyOrStr info.url "")
    license := npmNormalizedLicense (info.licenses.getD (.str "")) }

/-- Model of `process_npm_licenses`, with the parsed JSON mapping passed in as an
insertion-ordered association list (file reading and JSON decoding are the
caller's I/O). -/
def process_npm_licenses (data : List (String × NpmInfo)) : List DependencyRecord :=
  data.map (fun p => npmRecordOf p.1 p.2)

/-! ### Repository metadata fetcher: `fetch_github_repo_info`

The three HTTP sub-fetches are passed in as oracle outcomes.  A `success`
carries the decoded JSON body (fields `Option`-valued: `none` models an
absent key); `httpError c` models `urllib.error.HTTPError` with status `c`
(raised by `urlopen` for any non-2xx response); `failure` models every
other exception raised inside the `try` before the first assignment
(network error, timeout, body that is not valid JSON, ...). -/

/-- Outcome of one HTTP sub-fetch. -/
inductive SubFetch (α : Type) where
  | success (body : α)
  | httpError (code : Nat)
  | failure
deriving DecidableEq, Repr

/-- An ISO-8601 timestamp field as the code consumes it: absent or empty
(falsy), malformed (so `datetime.fromisoformat` raises `ValueError`), or a
well-formed timestamp modelled by its epoch seconds. -/
inductive TimeField where
  | absent
  | malformed
  | value (t : Int)
deriving DecidableEq, Repr

/-- Decoded body of `GET /repos/{owner}/{repo}`. -/
structure RepoJson where
  stargazers_count : Option Int
  open_issues_count : Option Int
  pushed_at : TimeField
deriving DecidableEq, Repr

/-- Decoded body of `GET /repos/{owner}/{repo}/releases/latest`. -/
structure ReleaseJson where
  tag_name : Option String
  published_at : TimeField
deriving DecidableEq, Repr

/-- Decoded body of `GET /repos/{owner}/{repo}/security/advisories`: a list
(modelled by its length) or some other JSON value. -/
inductive AdvisoriesJson where
  | list (entries : Nat)
  | other
deriving DecidableEq, Repr

/-- The `result` dictionary of `fetch_github_repo_info`. -/
structure RepoInfoResult where
  stars : Int
  last_commit_date : Option Int
  latest_version : Option String
  open_issues_count : Int
  last_release_date : Option Int
  has_known_cve : Bool
deriving DecidableEq, Repr

/-- The defaults set up before the three sub-fetches. -/
def defaultRepoInfo : RepoInfoResult :=
  { stars := 0, last_commit_date := none, latest_version := none,
    open_issues_count := 0, last_release_date := none, has_known_cve := false }

/-- Sub-fetch 1 (basic repo info).  On success the two `data.get(_, 0)`
assignments run first; a malformed `pushed_at` makes `fromisoformat` raise
after them, and the bare `except Exception: pass` keeps what was already
assigned.  `HTTPError` is an `Exception`, so any failure is swallowed. -/
def applyBaseFetch (r : RepoInfoResult) : SubFetch RepoJson → RepoInfoResult
  | .success d =>
    let r1 := { r with stars := d.stargazers_count.getD 0,
                       open_issues_count := d.open_issues_count.getD 0 }
    match d.pushed_at with
    | .value t => { r1 with last_commit_date := some t }
    | .absent => r1
    | .malformed => r1
  | .httpError _ => r
  | .failure => r

/-- Sub-fetch 2 (latest release).  `tag_name` is assigned before
`published_at` is parsed; the `except HTTPError` branch does nothing for
404 and also nothing otherwise (its `if e.code != 404: pass` has an empty
body), and `except Exception: pass` catches the rest. -/
def applyReleaseFetch (r : RepoInfoResult) : SubFetch ReleaseJson → RepoInfoResult
  | .success d =>
    let r1 := { r with latest_version := d.tag_name }
    match d.published_at with
    | .value t => { r1 with last_release_date := some t }
    | .absent => r1
    | .malformed => r1
  | .httpError _ => r
  | .failure => r

/-- Sub-fetch 3 (security advisories): a non-empty JSON list sets the flag;
every `HTTPError` (403/404 included) and every other exception is
swallowed. -/
def applyAdvisoriesFetch (r : RepoInfoResult) : SubFetch AdvisoriesJson → RepoInfoResult
  | .success (.list n) => if 0 < n then { r with has_known_cve := true } else r
  | .success .other => r
  | .httpError _ => r
  | .failure => r

/-- Model of `fetch_github_repo_info(owner, repo)`: start from the defaults and run
the three isolated sub-fetches in order.  The owner/repo arguments only
route the HTTP requests; the oracle outcomes stand for the responses.
Every handler catches its exception, so the function is total: it never
raises. -/
def fetch_github_repo_info (owner repo : String)
    (o1 : SubFetch RepoJson) (o2 : SubFetch ReleaseJson)
    (o3 : SubFetch AdvisoriesJson) : RepoInfoResult :=
  let _ := owner
  let _ := repo
  applyAdvisoriesFetch (applyReleaseFetch (applyBaseFetch defaultRepoInfo o1) o2) o3

/-- Field view of sub-fetch 1: the stars value it yields. -/
def baseStars : SubFetch RepoJson → Int
  | .success d => d.stargazers_count.getD 0
  | .httpError _ => 0
  | .failure => 0

/-- Field view of sub-fetch 1: the open-issues value it yields. -/
def baseIssues : SubFetch RepoJson → Int
  | .success d => d.open_issues_count.getD 0
  | .httpError _ => 0
  | .failure => 0

/-- Field view of sub-fetch 1: the last-commit timestamp it yields. -/
def baseCommit : SubFetch RepoJson → Option Int
  | .success d =>
    (match d.pushed_at with
     | .value t => some t
     | .absent => none
     | .malformed => none)
  | .httpError _ => none
  | .failure => none

/-- Field view of sub-fetch 2: the tag name it yields. -/
def relTag : SubFetch ReleaseJson → Option String
  | .success d => d.tag_name
  | .httpError _ => none
  | .failure => none

/-- Field view of sub-fetch 2: the release timestamp it yields. -/
def relDate : SubFetch ReleaseJson → Option Int
  | .success d =>
    (match d.published_at with
     | .value t => some t
     | .absent => none
     | .malformed => none)
  | .httpError _ => none
  | .failure => none

/-- Field view of sub-fetch 3: the vulnerability flag it yields. -/
def advFlag : SubFetch AdvisoriesJson → Bool
  | .success (.list n) => if 0 < n then true else false
  | .success .other => false
  | .httpError _ => false
  | .failure => false

/-! ### Version comparison: `is_significantly_older` -/

/-- Numeric value of a decimal digit string. -/
def digitsBase10 (l : List Char) : Nat :=
  l.foldl (fun n c => n * 10 + (c.toNat - 48)) 0

/-- The inner `parse_major`: `lstrip("v")`, then `re.match(r"(\d+)\.", s)`.
The regex matches exactly when the string starts with a non-empty maximal
digit run followed by a literal dot; `int(group(1))` is that run's value,
and a failed match yields 0. -/
def parse_major (ver_str : String) : Nat :=
  let s := pyLstripV ver_str.data
  let digits := s.takeWhile Char.isDigit
  if digits ≠ [] ∧ (s.dropWhile Char.isDigit).head? = some '.' then
    digitsBase10 digits
  else 0

/-- Model of `is_significantly_older(local_version, latest_version)`.  The latest
version comes from `result["latest_version"]`, so it can be `None`
(modelled `none`); `if not local_version or not latest_version` makes any
falsy argument return `False`. -/
def is_significantly_older (local_version : String)
    (latest_version : Option String) : Bool :=
  if local_version = "" then false
  else
    match latest_version with
    | none => false
    | some lv =>
      if lv = "" then false
      else decide ((parse_major lv : Int) - parse_major local_version ≥ 1)

/-! ### Risk scoring: `assess_risk` -/

/-- Value of `(datetime.now(timezone.utc) - d).days` with timestamps in epoch
seconds: `timedelta.days` is floor division by one day. -/
def daysBetween (now d : Int) : Int :=
  (now - d).fdiv 86400

/-- The value `open_issues_count * 100 / max(stars, 1)`.  Python computes
it with true (float) division; it is modelled as the exact rational
quotient, written with `mkRat` (the denominator `max(stars, 1)` is always
positive). -/
def issuesPer100Stars (info : RepoInfoResult) : Rat :=
  let denom : Int := if info.stars < 1 then 1 else info.stars
  mkRat (info.open_issues_count * 100) denom.toNat

/-- The score-accumulation block of `assess_risk` (everything after the
fetch): the six sequential rules, the threshold mapping, and
`", ".join(notes_list)`.  The issue-load comparison `ratio > 50` is
`Rat.blt 50 ratio`. -/
def score_from_info (now : Int) (info : RepoInfoResult)
    (local_version : String) : String × String :=
  let score : Nat := 0
  let notes_list : List String := []
  -- (1) Infrequent Commits
  let acc1 : Nat × List String :=
    match info.last_commit_date with
    | some d =>
      if daysBetween now d > 365 then (score + 1, notes_list ++ ["Infrequent Commits"])
      else (score, notes_list)
    | none => (score, notes_list)
  -- (2) Low Popularity
  let acc2 : Nat × List String :=
    if info.stars < 100 then (acc1.1 + 2, acc1.2 ++ ["Low Popularity"]) else acc1
  -- (3) Significantly Older Version
  let acc3 : Nat × List String :=
    if is_significantly_older local_version info.latest_version then
      (acc2.1 + 2, acc2.2 ++ ["Version Behind Latest"])
    else acc2
  -- (4) Excessive Open Issues
  let acc4 : Nat × List String :=
    if Rat.blt 50 (issuesPer100Stars info) then
      (acc3.1 + 1, acc3.2 ++ ["Excessive Open Issues"])
    else acc3
  -- (5) Last Release Date > 2 years
  let acc5 : Nat × List String :=
    match info.last_release_date with
    | some d =>
      if daysBetween now d > 730 then (acc4.1 + 1, acc4.2 ++ ["Stale Release (>2y)"])
      else acc4
    | none => acc4
  -- (6) Known CVE / CWEs
  let acc6 : Nat × List String :=
    if info.has_known_cve then (acc5.1 + 3, acc5.2 ++ ["Known CVE/CWEs"]) else acc5
  let risk_level : String :=
    if acc6.1 ≤ 1 then "Low" else if acc6.1 ≤ 3 then "Medium" else "High"
  (risk_level, String.intercalate ", " acc6.2)

/-- Try to match `github\.com/([^/]+)/([^/]+)` at the head of `l`:
the literal, a non-empty maximal `'/'`-free run, a slash, then a non-empty
maximal `'/'`-free run. -/
def githubMatchAt (l : List Char) : Option (List Char × List Char) :=
  if l.take 11 = "github.com/".data then
    let rest := l.drop 11
    let g1 := rest.takeWhile (fun c => c ≠ '/')
    match rest.dropWhile (fun c => c ≠ '/') with
    | '/' :: rest2 =>
      let g2 := rest2.takeWhile (fun c => c ≠ '/')
      if g1 ≠ [] ∧ g2 ≠ [] then some (g1, g2) else none
    | _ => none
  else none

/-- Leftmost match, as `re.search` finds it. -/
def githubSearchList : List Char → Option (List Char × List Char)
  | [] => none
  | c :: rest =>
    match githubMatchAt (c :: rest) with
    | some r => some r
    | none => githubSearchList rest

/-- Model of `re.search(r"github\.com/([^/]+)/([^/]+)", repo_url)`,
returning `(group(1), group(2))` of the leftmost match. -/
def github_search (s : String) : Option (String × String) :=
  (githubSearchList s.data).map (fun p => (⟨p.1⟩, ⟨p.2⟩))

/-- Modelled from the spec: the program calls `parse_maintainer_from_url`
but defines it nowhere.  Spec section 4.4 step 1 describes the missing
piece: extract the owner from a GitHub-style URL using the pattern
`github.com/<owner>/<repo>`, and treat a URL that does not match this
shape as unscorable (falsy result, so `assess_risk` returns `("Low", "")`
immediately). -/
def parse_maintainer_from_url_spec (repo_url : String) : Option String :=
  (github_search repo_url).map (fun p => p.1)

/-- A Python runtime error surfaced by the embedding. -/
inductive PyError where
  | nameError (name : String)
deriving DecidableEq, Repr

/-- The names bound at module level in `cook_soup.py` (its imports, the
class, the functions and the dictionary).  `parse_maintainer_from_url` is
not among them. -/
def moduleGlobalNames : List String :=
  ["json", "os", "re", "urllib", "datetime", "timezone",
   "License", "LICENSE_MAPPING", "get_license_object", "normalize_license",
   "process_poetry_licenses", "process_npm_licenses",
   "fetch_github_repo_info", "is_significantly_older", "assess_risk", "main"]

/-- Python name resolution at a call site: an unbound global raises
`NameError`. -/
def pyResolveName (n : String) : Except PyError Unit :=
  if n ∈ moduleGlobalNames then Except.ok () else Except.error (.nameError n)

/-- The body of `assess_risk` given a binding for the (missing)
`parse_maintainer_from_url`.  The fetch is an oracle
`owner → repo → RepoInfoResult`; the returned list records the
`fetch_github_repo_info` calls made, so "zero network fetches" is
observable.  Guards in source order: falsy owner, then the function's own
`re.search`; the repo name is `match.group(2).rstrip(".git")` while the
owner comes from `parse_maintainer_from_url`. -/
def assess_riskGiven (pmfu : String → Option String)
    (fetch : String → String → RepoInfoResult) (now : Int)
    (repo_url local_version : String) :
    (String × String) × List (String × String) :=
  match pmfu repo_url with
  | none => (("Low", ""), [])
  | some owner =>
    if owner = "" then (("Low", ""), [])
    else
      match github_search repo_url with
      | none => (("Low", ""), [])
      | some g =>
        let repo_name := pyRstripGit g.2
        let info := fetch owner repo_name
        (score_from_info now info local_version, [(owner, repo_name)])

/-- Model of `assess_risk(repo_url, local_version)` as the program actually runs:
its first statement evaluates the unbound name
`parse_maintainer_from_url`, so a `NameError` is raised before anything
else; the continuation (never reached) is the body with the spec-modelled
binding. -/
def assess_risk (fetch : String → String → RepoInfoResult) (now : Int)
    (repo_url local_version : String) : Except PyError (String × String) := do
  pyResolveName "parse_maintainer_from_url"
  pure (assess_riskGiven parse_maintainer_from_url_spec fetch now repo_url local_version).1

/-! ### Aggregation pipeline: the body of `main` after ingestion -/

/-- The deduplication key `(e["name"], e["version"], e["license"])`. -/
def dedupKey (e : DependencyRecord) : String × String × String :=
  (e.name, e.version, e.license)

/-- The dedup loop with the set of already-seen keys made explicit: a
record whose key is in `unique_map` is skipped, otherwise it is appended
(Python dicts preserve insertion order, so `list(unique_map.values())` is
the first-occurrence subsequence). -/
def dedupAux (seen : List (String × String × String)) :
    List DependencyRecord → List DependencyRecord
  | [] => []
  | e :: rest =>
    if dedupKey e ∈ seen then dedupAux seen rest
    else e :: dedupAux (dedupKey e :: seen) rest

/-- Lines 347-353: deduplicate by `(name, version, license)`, first
occurrence wins. -/
def dedupEntries (entries : List DependencyRecord) : List DependencyRecord :=
  dedupAux [] entries

/-- The license-requirement text derived in the enrichment loop. -/
def licenseReqText (lic : License) : String :=
  let base := if lic.requires_license_file then "Include License File"
              else "No License File Required"
  if lic.is_non_commercial_only then base ++ ", NON-COMMERCIAL USE ONLY" else base

/-- One iteration of the enrichment loop, with the `(risk_level, notes)`
pair returned by `assess_risk` passed in: derive the requirement text,
then override both values when the record's license is the literal string
`"unknown"`. -/
def enrichWith (rn : String × String) (e : DependencyRecord) : EnrichedRecord :=
  let license_obj := get_license_object e.license
  let license_req := licenseReqText license_obj
  let rn' := if e.license = "unknown"
             then ("High", "Unknown License, Manual Review Required") else rn
  { name := e.name, version := e.version, url := e.url, license := e.license,
    risk_level := rn'.1, license_req := license_req, notes := rn'.2 }

/-- Value of `risk_priority.get(risk_level, 999)`. -/
def risk_priority (r : String) : Nat :=
  (([("High", 1), ("Medium", 2), ("Low", 3)] : List (String × Nat)).lookup r).getD 999

/-- The sort key `(risk_priority.get(e["risk_level"], 999), e["name"].lower())`. -/
def sortKey (e : EnrichedRecord) : Nat × List Char :=
  (risk_priority e.risk_level, (pyLower e.name).data)

/-- Python's tuple comparison `sortKey a < sortKey b` (lexicographic pair
order, strings compared by code point). -/
def keyLT (a b : EnrichedRecord) : Bool :=
  decide ((sortKey a).1 < (sortKey b).1) ||
    (decide ((sortKey a).1 = (sortKey b).1) && pyStrLt (sortKey a).2 (sortKey b).2)

/-- Python's tuple comparison `sortKey a <= sortKey b`. -/
def keyLE (a b : EnrichedRecord) : Bool :=
  !(keyLT b a)

/-- Insert `a` into `l` just before the first element strictly greater in
the key order, i.e. after every element whose key is less than or equal to
`a`'s: this keeps equal-key elements in their arrival order. -/
def insertSorted (a : EnrichedRecord) :
    List EnrichedRecord → List EnrichedRecord
  | [] => [a]
  | b :: l => if keyLT a b then a :: b :: l else b :: insertSorted a l

/-- Line 375: `final_entries.sort(key=...)`.  Python's `list.sort` is a
stable sort by the key order; the output of a stable sort is uniquely
determined (the sorted permutation in which equal-key elements keep their
input order), so it is modelled by a stable insertion sort. -/
def sortEntries (l : List EnrichedRecord) : List EnrichedRecord :=
  l.foldl (fun acc x => insertSorted x acc) []

/-- Lines 347-377 of `main` with the scorer passed in as a function:
deduplicate, enrich every unique record, sort. -/
def mainCore (assess : String → String → String × String)
    (entries : List DependencyRecord) : List EnrichedRecord :=
  sortEntries ((dedupEntries entries).map
    (fun e => enrichWith (assess e.url e.version) e))

/-- Lines 347-377 of `main` as the program actually runs: the enrichment
loop calls `assess_risk`, whose `NameError` propagates out of `main`
(there is no handler), aborting before the sort and the rendering. -/
def mainCoreStrict (fetch : String → String → RepoInfoResult) (now : Int)
    (entries : List DependencyRecord) : Except PyError (List EnrichedRecord) := do
  let final_entries := dedupEntries entries
  let enriched ← final_entries.mapM (fun e => do
    let rn ← assess_risk fetch now e.url e.version
    pure (enrichWith rn e))
  pure (sortEntries enriched)

/-- A fetch oracle for witnesses: every request yields the defaults. -/
def fetch0 : String → String → RepoInfoResult := fun _ _ => defaultRepoInfo

/-- The scorer induced by the spec-modelled `parse_maintainer_from_url`
and the default-returning fetch oracle, at time 0. -/
def scorer0 (repo_url local_version : String) : String × String :=
  (assess_riskGiven parse_maintainer_from_url_spec fetch0 0 repo_url local_version).1

/-! ### Claim-side restatements

These definitions follow the words of the claims being checked (not the
source); the refinement theorems below compare them with the embedding of
the source. -/

/-- Claim C5's rule table: each entry is (trigger condition, points,
note label), in rule-check order. -/
def scoreRules (now : Int) (info : RepoInfoResult) (local_version : String) :
    List (Bool × Nat × String) :=
  [ ((match info.last_commit_date with
      | some d => decide (daysBetween now d > 365)
      | none => false), 1, "Infrequent Commits"),
    (decide (info.stars < 100), 2, "Low Popularity"),
    (is_significantly_older local_version info.latest_version, 2, "Version Behind Latest"),
    (Rat.blt 50 (issuesPer100Stars info), 1, "Excessive Open Issues"),
    ((match info.last_release_date with
      | some d => decide (daysBetween now d > 730)
      | none => false), 1, "Stale Release (>2y)"),
    (info.has_known_cve, 3, "Known CVE/CWEs") ]

/-- Claim C5's description of the result: the total is the sum of the
points of all triggered rules; 0 or 1 maps to Low, 2 or 3 to Medium, 4 or
more to High; the notes are the comma-joined triggered labels in
rule-check order (empty when none triggered). -/
def score_spec (now : Int) (info : RepoInfoResult) (local_version : String) :
    String × String :=
  let triggered := (scoreRules now info local_version).filter (fun r => r.1)
  let total : Nat := (triggered.map (fun r => r.2.1)).sum
  let level := if total = 0 ∨ total = 1 then "Low"
               else if total = 2 ∨ total = 3 then "Medium"
               else "High"
  (level, String.intercalate ", " (triggered.map (fun r => r.2.2)))

/-- Index of the last occurrence of `sep` (claim C10 splits the key at the
last `"@"`). -/
def lastIndexOf (sep : Char) : List Char → Option Nat
  | [] => none
  | c :: rest =>
    match lastIndexOf sep rest with
    | some i => some (i + 1)
    | none => if c = sep then some 0 else none

/-- First non-empty value among the listed optional fields, else `""`
(claim C10's url rule). -/
def firstNonEmpty : List (Option String) → String
  | [] => ""
  | o :: rest =>
    match o with
    | some s => if s ≠ "" then s else firstNonEmpty rest
    | none => firstNonEmpty rest

/-- Claim C10's description of one parsed npm record: the key is split at
the last `"@"` into name and version (no `"@"` yields version
`"unknown"`); a non-empty list license contributes its first element,
otherwise the field is used as a string; the url is the first non-empty of
the repository field then the url field, else the empty string. -/
def npmRecordSpec (package_key : String) (info : NpmInfo) : DependencyRecord :=
  let k := package_key.data
  let nv : String × String :=
    match lastIndexOf '@' k with
    | some i => (⟨k.take i⟩, ⟨k.drop (i + 1)⟩)
    | none => (package_key, "unknown")
  let licenseString : String :=
    match info.licenses.getD (.str "") with
    | .list (x :: _) => x
    | .list [] => ""
    | .str s => s
  { name := nv.1
    version := nv.2
    url := firstNonEmpty [info.repository, info.url]
    license := normalize_license licenseString }

/-! ### Character-level facts used for license normalization (claim C4) -/

theorem char_toNat_ofNat_valid (m : Nat) (h : m.isValidChar) :
    (Char.ofNat m).toNat = m := by
  rw [Char.ofNat, dif_pos h]
  rfl

theorem pyLowerChar_toNat (c : Char) :
    (pyLowerChar c).toNat =
      if 65 ≤ c.toNat ∧ c.toNat ≤ 90 then c.toNat + 32 else c.toNat := by
  unfold pyLowerChar
  by_cases h : 65 ≤ c.toNat ∧ c.toNat ≤ 90
  · rw [if_pos h, if_pos h, char_toNat_ofNat_valid]
    exact Or.inl (by omega)
  · rw [if_neg h, if_neg h]

theorem pyLowerChar_idem (c : Char) :
    pyLowerChar (pyLowerChar c) = pyLowerChar c := by
  have h1 := pyLowerChar_toNat c
  have hn : ¬ (65 ≤ (pyLowerChar c).toNat ∧ (pyLowerChar c).toNat ≤ 90) := by
    by_cases h : 65 ≤ c.toNat ∧ c.toNat ≤ 90
    · rw [if_pos h] at h1; omega
    · rw [if_neg h] at h1; omega
  show (if 65 ≤ (pyLowerChar c).toNat ∧ (pyLowerChar c).toNat ≤ 90
        then Char.ofNat ((pyLowerChar c).toNat + 32) else pyLowerChar c) = pyLowerChar c
  rw [if_neg hn]

theorem pyIsSpaceNat_eq_false (m : Nat) (h : 33 ≤ m) : pyIsSpaceNat m = false := by
  simp only [pyIsSpaceNat, Bool.or_eq_false_iff, decide_eq_false_iff_not]
  omega

theorem pyIsSpace_pyLowerChar (c : Char) :
    pyIsSpace (pyLowerChar c) = pyIsSpace c := by
  have h1 := pyLowerChar_toNat c
  by_cases h : 65 ≤ c.toNat ∧ c.toNat ≤ 90
  · rw [if_pos h] at h1
    unfold pyIsSpace
    rw [h1, pyIsSpaceNat_eq_false _ (by omega), pyIsSpaceNat_eq_false _ (by omega)]
  · rw [if_neg h] at h1
    unfold pyIsSpace
    rw [h1]

theorem dropWhile_map_pyLower (l : List Char) :
    (l.map pyLowerChar).dropWhile pyIsSpace =
      (l.dropWhile pyIsSpace).map pyLowerChar := by
  rw [List.dropWhile_map,
    show (pyIsSpace ∘ pyLowerChar) = pyIsSpace from funext pyIsSpace_pyLowerChar]

theorem stripList_map_pyLower (l : List Char) :
    pyStripList (l.map pyLowerChar) = (pyStripList l).map pyLowerChar := by
  unfold pyStripList
  rw [dropWhile_map_pyLower, ← List.map_reverse, dropWhile_map_pyLower, ← List.map_reverse]

theorem map_pyLower_idem (l : List Char) :
    (l.map pyLowerChar).map pyLowerChar = l.map pyLowerChar := by
  rw [List.map_map]
  exact List.map_congr_left (fun a _ => pyLowerChar_idem a)

theorem pyStripList_eq_rdrop (l : List Char) :
    pyStripList l = (l.dropWhile pyIsSpace).rdropWhile pyIsSpace := rfl

theorem dropWhile_pyStripList (l : List Char) :
    (pyStripList l).dropWhile pyIsSpace = pyStripList l := by
  rw [pyStripList_eq_rdrop]
  obtain ⟨s, hs⟩ := List.rdropWhile_prefix pyIsSpace (l.dropWhile pyIsSpace)
  cases e : (l.dropWhile pyIsSpace).rdropWhile pyIsSpace with
  | nil => rfl
  | cons y t =>
    have hh := List.head?_dropWhile_not pyIsSpace l
    rw [e] at hs
    rw [← hs] at hh
    simp only [List.cons_append, List.head?_cons] at hh
    exact List.dropWhile_cons_of_neg (by simp_all)

theorem stripList_idem (l : List Char) :
    pyStripList (pyStripList l) = pyStripList l := by
  rw [pyStripList_eq_rdrop (pyStripList l), dropWhile_pyStripList,
    pyStripList_eq_rdrop]
  exact List.rdropWhile_idempotent pyIsSpace (l.dropWhile pyIsSpace)

theorem normalize_idem_of_ne_empty (x : String) (h : normalize_license x ≠ "") :
    normalize_license (normalize_license x) = normalize_license x := by
  by_cases hx : x = ""
  · subst hx; decide
  · have hy : normalize_license x = pyStrip (pyCasefold x) := by
      rw [normalize_license, if_neg hx]
    rw [hy] at h ⊢
    rw [normalize_license, if_neg h]
    have key : pyStripList (List.map pyLowerChar (pyStripList (List.map pyLowerChar x.data)))
        = pyStripList (List.map pyLowerChar x.data) := by
      rw [← stripList_map_pyLower, map_pyLower_idem, stripList_idem]
    exact congrArg String.mk key

/-! ### Claim C4: license normalization -/

/-- Claim C4 (counterexample): normalization is NOT idempotent for every
input string.  The whitespace-only string `" "` is non-empty, so it is
casefolded and stripped to `""`, but normalizing `""` yields `"unknown"`:
`normalize(normalize(" ")) = "unknown" ≠ "" = normalize(" ")`. -/
theorem claim_C4_counterexample :
    normalize_license (normalize_license " ") ≠ normalize_license " " := by
  decide

/-- Claim C4 (amended): `normalize_license` is idempotent for every input
whose normalization is non-empty (non-empty all-whitespace inputs
normalize to `""`, which re-normalizes to `"unknown"`); moreover
`normalize("") = "unknown"`, and case and surrounding whitespace are
ignored, so `normalize(" MIT ") = "mit"`. -/
theorem claim_C4 :
    (∀ x : String, normalize_license x ≠ "" →
        normalize_license (normalize_license x) = normalize_license x) ∧
    normalize_license "" = "unknown" ∧
    normalize_license " MIT " = "mit" :=
  ⟨normalize_idem_of_ne_empty, by decide, by decide⟩

/-- Claim C4 witness: the amended idempotence applied at `" MIT "`. -/
theorem claim_C4_witness :
    normalize_license " MIT " ≠ "" ∧
      normalize_license (normalize_license " MIT ") = normalize_license " MIT " :=
  ⟨by decide, claim_C4.1 " MIT " (by decide)⟩

/-! ### Claim C8: version-currency comparison -/

/-- Claim C8: `is_significantly_older` strips leading `"v"`s, parses the
leading major integer (non-numeric or missing versions parse as major 0),
returns true exactly when the latest major exceeds the local major by 1 or
more, and returns false whenever either version is missing (empty or
`None`); in particular `is_significantly_older("1.2.0", "v3.0.0")` is true
and `is_significantly_older("2.0.0", "2.9.9")` is false. -/
theorem claim_C8 :
    (∀ lv : Option String, is_significantly_older "" lv = false) ∧
    (∀ l : String, is_significantly_older l none = false) ∧
    (∀ l : String, is_significantly_older l (some "") = false) ∧
    (∀ l lv : String, l ≠ "" → lv ≠ "" →
      is_significantly_older l (some lv) =
        decide ((parse_major lv : Int) - parse_major l ≥ 1)) ∧
    parse_major "v3.0.0" = 3 ∧ parse_major "" = 0 ∧ parse_major "alpha" = 0 ∧
    is_significantly_older "1.2.0" (some "v3.0.0") = true ∧
    is_significantly_older "2.0.0" (some "2.9.9") = false := by
  refine ⟨?_, ?_, ?_, ?_, by decide, by decide, by decide, by decide, by decide⟩
  · intro lv
    simp [is_significantly_older]
  · intro l
    by_cases hl : l = "" <;> simp [is_significantly_older, hl]
  · intro l
    by_cases hl : l = "" <;> simp [is_significantly_older, hl]
  · intro l lv h1 h2
    simp [is_significantly_older, h1, h2]

/-- Claim C8 witness: the general biconditional applied at the claim's own
example pair. -/
theorem claim_C8_witness :
    ("1.2.0" : String) ≠ "" ∧ ("v3.0.0" : String) ≠ "" ∧
      is_significantly_older "1.2.0" (some "v3.0.0") =
        decide ((parse_major "v3.0.0" : Int) - parse_major "1.2.0" ≥ 1) :=
  ⟨by decide, by decide, claim_C8.2.2.2.1 "1.2.0" "v3.0.0" (by decide) (by decide)⟩

/-! ### Claim C5: the weighted scoring function -/

/-- Claim C5: the risk score accumulates exactly the six independent
contributions of `scoreRules` (commit staleness +1, low popularity +2,
version behind +2, issue load +1, release staleness +1, known
vulnerability +3); the total maps to Low for 0 or 1, Medium for 2 or 3,
High for 4 or more, and the notes are the comma-joined triggered labels in
rule-check order (empty when none triggered). -/
theorem claim_C5 (now : Int) (info : RepoInfoResult) (local_version : String) :
    score_from_info now info local_version = score_spec now info local_version := by
  rcases hc : info.last_commit_date with _ | d1
  · rcases hr : info.last_release_date with _ | d2
    · by_cases h2 : info.stars < 100 <;>
        cases h3 : is_significantly_older local_version info.latest_version <;>
        cases h4 : Rat.blt 50 (issuesPer100Stars info) <;>
        cases h6 : info.has_known_cve <;>
        simp [*, score_from_info, score_spec, scoreRules, List.filter_cons]
    · by_cases h5 : daysBetween now d2 > 730 <;>
        by_cases h2 : info.stars < 100 <;>
        cases h3 : is_significantly_older local_version info.latest_version <;>
        cases h4 : Rat.blt 50 (issuesPer100Stars info) <;>
        cases h6 : info.has_known_cve <;>
        simp [*, score_from_info, score_spec, scoreRules, List.filter_cons]
  · rcases hr : info.last_release_date with _ | d2
    · by_cases h1 : daysBetween now d1 > 365 <;>
        by_cases h2 : info.stars < 100 <;>
        cases h3 : is_significantly_older local_version info.latest_version <;>
        cases h4 : Rat.blt 50 (issuesPer100Stars info) <;>
        cases h6 : info.has_known_cve <;>
        simp [*, score_from_info, score_spec, scoreRules, List.filter_cons]
    · by_cases h1 : daysBetween now d1 > 365 <;>
        by_cases h5 : daysBetween now d2 > 730 <;>
        by_cases h2 : info.stars < 100 <;>
        cases h3 : is_significantly_older local_version info.latest_version <;>
        cases h4 : Rat.blt 50 (issuesPer100Stars info) <;>
        cases h6 : info.has_known_cve <;>
        simp [*, score_from_info, score_spec, scoreRules, List.filter_cons]

/-! ### Claim C9: the repository metadata fetcher -/

/-- Claim C9: `fetch_github_repo_info` is total (it returns a
`RepoInfoResult` for every owner, repo and oracle behavior — every
sub-fetch exception is caught), each sub-fetch failure is isolated:
(1) when the base sub-fetch fails (HTTP error or any other exception),
`stars`, `open_issues_count` and `last_commit_date` keep their defaults;
(2) the fields of each sub-fetch do not depend on the other two outcomes;
(3) when the release sub-fetch fails, `latest_version` and
`last_release_date` stay absent, and a 404 there gives exactly the same
result as a release response with no tag and no date;
(4) when the advisories sub-fetch fails (403/404 included),
`has_known_cve` stays false. -/
theorem fetch_github_repo_info_eq (owner repo : String)
    (o1 : SubFetch RepoJson) (o2 : SubFetch ReleaseJson) (o3 : SubFetch AdvisoriesJson) :
    fetch_github_repo_info owner repo o1 o2 o3 =
      { stars := baseStars o1, last_commit_date := baseCommit o1,
        latest_version := relTag o2, open_issues_count := baseIssues o1,
        last_release_date := relDate o2, has_known_cve := advFlag o3 } := by
  rcases o1 with ⟨sc, oc, pu⟩ | c1 | _ <;>
    rcases o2 with ⟨tg, pb⟩ | c2 | _ <;>
    rcases o3 with (n | _) | c3 | _ <;>
    (try cases pu) <;> (try cases pb) <;>
    simp [fetch_github_repo_info, applyBaseFetch, applyReleaseFetch, applyAdvisoriesFetch,
      defaultRepoInfo, baseStars, baseCommit, relTag, baseIssues, relDate, advFlag] <;>
    (try (split <;> simp_all))

theorem claim_C9 :
    (∀ (owner repo : String) (o2 : SubFetch ReleaseJson) (o3 : SubFetch AdvisoriesJson)
        (c : Nat),
      ((fetch_github_repo_info owner repo .failure o2 o3).stars = 0 ∧
       (fetch_github_repo_info owner repo .failure o2 o3).open_issues_count = 0 ∧
       (fetch_github_repo_info owner repo .failure o2 o3).last_commit_date = none) ∧
      ((fetch_github_repo_info owner repo (.httpError c) o2 o3).stars = 0 ∧
       (fetch_github_repo_info owner repo (.httpError c) o2 o3).open_issues_count = 0 ∧
       (fetch_github_repo_info owner repo (.httpError c) o2 o3).last_commit_date = none)) ∧
    (∀ (owner repo : String) (o1 o1' : SubFetch RepoJson) (o2 o2' : SubFetch ReleaseJson)
        (o3 o3' : SubFetch AdvisoriesJson),
      ((fetch_github_repo_info owner repo o1 o2 o3).latest_version =
        (fetch_github_repo_info owner repo o1' o2 o3).latest_version ∧
       (fetch_github_repo_info owner repo o1 o2 o3).last_release_date =
        (fetch_github_repo_info owner repo o1' o2 o3).last_release_date ∧
       (fetch_github_repo_info owner repo o1 o2 o3).has_known_cve =
        (fetch_github_repo_info owner repo o1' o2 o3).has_known_cve) ∧
      ((fetch_github_repo_info owner repo o1 o2 o3).stars =
        (fetch_github_repo_info owner repo o1 o2' o3).stars ∧
       (fetch_github_repo_info owner repo o1 o2 o3).open_issues_count =
        (fetch_github_repo_info owner repo o1 o2' o3).open_issues_count ∧
       (fetch_github_repo_info owner repo o1 o2 o3).last_commit_date =
        (fetch_github_repo_info owner repo o1 o2' o3).last_commit_date ∧
       (fetch_github_repo_info owner repo o1 o2 o3).has_known_cve =
        (fetch_github_repo_info owner repo o1 o2' o3).has_known_cve) ∧
      ((fetch_github_repo_info owner repo o1 o2 o3).stars =
        (fetch_github_repo_info owner repo o1 o2 o3').stars ∧
       (fetch_github_repo_info owner repo o1 o2 o3).open_issues_count =
        (fetch_github_repo_info owner repo o1 o2 o3').open_issues_count ∧
       (fetch_github_repo_info owner repo o1 o2 o3).last_commit_date =
        (fetch_github_repo_info owner repo o1 o2 o3').last_commit_date ∧
       (fetch_github_repo_info owner repo o1 o2 o3).latest_version =
        (fetch_github_repo_info owner repo o1 o2 o3').latest_version ∧
       (fetch_github_repo_info owner repo o1 o2 o3).last_release_date =
        (fetch_github_repo_info owner repo o1 o2 o3').last_release_date)) ∧
    (∀ (owner repo : String) (o1 : SubFetch RepoJson) (o3 : SubFetch AdvisoriesJson)
        (c : Nat),
      ((fetch_github_repo_info owner repo o1 (.httpError c) o3).latest_version = none ∧
       (fetch_github_repo_info owner repo o1 (.httpError c) o3).last_release_date = none ∧
       (fetch_github_repo_info owner repo o1 .failure o3).latest_version = none ∧
       (fetch_github_repo_info owner repo o1 .failure o3).last_release_date = none) ∧
      fetch_github_repo_info owner repo o1 (.httpError 404) o3 =
        fetch_github_repo_info owner repo o1 (.success ⟨none, .absent⟩) o3) ∧
    (∀ (owner repo : String) (o1 : SubFetch RepoJson) (o2 : SubFetch ReleaseJson)
        (c : Nat),
      (fetch_github_repo_info owner repo o1 o2 (.httpError c)).has_known_cve = false ∧
      (fetch_github_repo_info owner repo o1 o2 .failure).has_known_cve = false) := by
  refine ⟨?_, ?_, ?_, ?_⟩
  · intro owner repo o2 o3 c
    simp [fetch_github_repo_info_eq, baseStars, baseIssues, baseCommit]
  · intro owner repo o1 o1' o2 o2' o3 o3'
    simp [fetch_github_repo_info_eq]
  · intro owner repo o1 o3 c
    simp [fetch_github_repo_info_eq, relTag, relDate]
  · intro owner repo o1 o2 c
    simp [fetch_github_repo_info_eq, advFlag]

/-! ### Claim C10: the npm-style ingestion adapter -/

theorem rsplitOnce_eq_lastIndexOf (sep : Char) (l : List Char) :
    rsplitOnce sep l = (lastIndexOf sep l).map (fun i => (l.take i, l.drop (i + 1))) := by
  induction l with
  | nil => rfl
  | cons c rest ih =>
    simp only [rsplitOnce, lastIndexOf, ih]
    cases h : lastIndexOf sep rest with
    | some i => simp
    | none => by_cases hc : c = sep <;> simp [hc]

theorem pyOr_eq_firstNonEmpty (a b : Option String) :
    pyOrStr a (pyOrStr b "") = firstNonEmpty [a, b] := by
  rcases a with _ | sa
  · rcases b with _ | sb
    · rfl
    · by_cases h : sb = "" <;> simp [pyOrStr, firstNonEmpty, h]
  · rcases b with _ | sb
    · by_cases h : sa = "" <;> simp [pyOrStr, firstNonEmpty, h]
    · by_cases h : sa = "" <;> by_cases h2 : sb = "" <;>
        simp [pyOrStr, firstNonEmpty, h, h2]

theorem npmLicense_eq (f : NpmLicenses) :
    npmNormalizedLicense f =
      normalize_license
        (match f with
         | .list (x :: _) => x
         | .list [] => ""
         | .str s => s) := by
  cases f with
  | str s => rfl
  | list l => cases l <;> rfl

/-- Claim C10: adapter B parses every input mapping as described: each key
is split at the last `"@"` into name and version (a key with no `"@"`
yields version `"unknown"`), a non-empty list license contributes its
first element (otherwise the field is used as a string, empty lists
normalizing to `"unknown"`), and the record url is the first non-empty of
the repository field then the url field, else the empty string. -/
theorem claim_C10 (data : List (String × NpmInfo)) :
    process_npm_licenses data = data.map (fun p => npmRecordSpec p.1 p.2) := by
  unfold process_npm_licenses
  refine List.map_congr_left (fun p _ => ?_)
  rcases p with ⟨k, info⟩
  simp only [npmRecordOf, npmRecordSpec, rsplitOnce_eq_lastIndexOf, pyOr_eq_firstNonEmpty,
    npmLicense_eq]
  cases h : lastIndexOf '@' k.data <;> simp [h]

/-! ### Claim C2: non-GitHub URLs are not scored -/

/-- Claim C2: for every repository URL in which the pattern
`github.com/<owner>/<repo>` does not occur (the empty string and
non-GitHub hosts such as gitlab.com included), the risk scorer returns
`("Low", "")` immediately and performs zero fetches.  Stated on
`assess_riskGiven` with the spec-modelled `parse_maintainer_from_url`
binding, since the source defines no such function (claim C1). -/
theorem claim_C2 :
    (∀ (fetch : String → String → RepoInfoResult) (now : Int) (url ver : String),
      github_search url = none →
      assess_riskGiven parse_maintainer_from_url_spec fetch now url ver =
        (("Low", ""), [])) ∧
    github_search "https://gitlab.com/x/y" = none ∧ github_search "" = none := by
  refine ⟨?_, by decide, by decide⟩
  intro fetch now url ver h
  simp [assess_riskGiven, parse_maintainer_from_url_spec, h]

/-- Claim C2 witness: the gitlab URL of the claim, scored with the
default-returning fetch oracle. -/
theorem claim_C2_witness :
    github_search "https://gitlab.com/x/y" = none ∧
      assess_riskGiven parse_maintainer_from_url_spec fetch0 0
        "https://gitlab.com/x/y" "1.0.0" = (("Low", ""), []) :=
  ⟨by decide, claim_C2.1 fetch0 0 "https://gitlab.com/x/y" "1.0.0" (by decide)⟩

/-! ### Claim C1: the undefined helper aborts every risk assessment -/

/-- Claim C1: every call to `assess_risk` raises `NameError`, because its
first statement calls `parse_maintainer_from_url`, which no module-level
binding defines; consequently `main` aborts (the error propagates out of
the enrichment loop) whenever at least one dependency record is produced,
before any scoring result is recorded, before sorting and before
rendering. -/
theorem claim_C1 :
    (∀ (fetch : String → String → RepoInfoResult) (now : Int)
        (repo_url local_version : String),
      assess_risk fetch now repo_url local_version =
        Except.error (.nameError "parse_maintainer_from_url")) ∧
    (∀ (fetch : String → String → RepoInfoResult) (now : Int)
        (entries : List DependencyRecord), entries ≠ [] →
      mainCoreStrict fetch now entries =
        Except.error (.nameError "parse_maintainer_from_url")) := by
  have hres : pyResolveName "parse_maintainer_from_url" =
      Except.error (.nameError "parse_maintainer_from_url") := by
    simp [pyResolveName, moduleGlobalNames]
  constructor
  · intro fetch now url ver
    simp [assess_risk, hres, Bind.bind, Except.bind]
  · intro fetch now entries hne
    rcases entries with _ | ⟨e, rest⟩
    · exact absurd rfl hne
    · simp [mainCoreStrict, dedupEntries, dedupAux, List.mapM_cons, List.mapM.loop,
        assess_risk, hres, Bind.bind, Except.bind]

/-- Claim C1 witness: a concrete one-record run aborts with the
`NameError`, and a concrete `assess_risk` call fails the same way. -/
theorem claim_C1_witness :
    ([(⟨"pkg", "1.0.0", "", "mit"⟩ : DependencyRecord)] ≠ []) ∧
      mainCoreStrict fetch0 0 [⟨"pkg", "1.0.0", "", "mit"⟩] =
        Except.error (.nameError "parse_maintainer_from_url") ∧
      assess_risk fetch0 0 "https://github.com/a/b" "1.0.0" =
        Except.error (.nameError "parse_maintainer_from_url") :=
  ⟨by decide, claim_C1.2 fetch0 0 [⟨"pkg", "1.0.0", "", "mit"⟩] (by decide),
    claim_C1.1 fetch0 0 "https://github.com/a/b" "1.0.0"⟩

/-! ### Claim C6: deduplication -/

theorem dedupAux_skip (seen : List (String × String × String)) (r' : DependencyRecord)
    (h : dedupKey r' ∈ seen) (l1 l2 : List DependencyRecord) :
    dedupAux seen (l1 ++ r' :: l2) = dedupAux seen (l1 ++ l2) := by
  induction l1 generalizing seen with
  | nil => simp only [List.nil_append, dedupAux, if_pos h]
  | cons e rest ih =>
    simp only [List.cons_append, dedupAux]
    by_cases he : dedupKey e ∈ seen
    · rw [if_pos he, if_pos he]
      exact ih seen h
    · rw [if_neg he, if_neg he]
      congr 1
      exact ih _ (List.mem_cons_of_mem _ h)

theorem dedupAux_splice (seen : List (String × String × String))
    (pre mid post : List DependencyRecord) (r r' : DependencyRecord)
    (h : dedupKey r' = dedupKey r) :
    dedupAux seen (pre ++ r :: mid ++ r' :: post) =
      dedupAux seen (pre ++ r :: mid ++ post) := by
  induction pre generalizing seen with
  | nil =>
    simp only [List.nil_append, dedupAux]
    by_cases hr : dedupKey r ∈ seen
    · rw [if_pos hr, if_pos hr]
      exact dedupAux_skip seen r' (h ▸ hr) mid post
    · rw [if_neg hr, if_neg hr]
      congr 1
      exact dedupAux_skip _ r' (by rw [h]; exact List.mem_cons_self _ _) mid post
  | cons e rest ih =>
    simp only [List.cons_append, dedupAux]
    by_cases he : dedupKey e ∈ seen
    · rw [if_pos he, if_pos he]
      exact ih seen
    · rw [if_neg he, if_neg he]
      congr 1
      exact ih _

/-- Claim C6: deduplication keys records by the triple
(name, version, license) and keeps the first-seen record: a later record
whose key already occurred is discarded silently (removing it does not
change the result), and for two records identical in the key but differing
elsewhere only the first survives. -/
theorem claim_C6 :
    (∀ (pre mid post : List DependencyRecord) (r r' : DependencyRecord),
      dedupKey r' = dedupKey r →
      dedupEntries (pre ++ r :: mid ++ r' :: post) =
        dedupEntries (pre ++ r :: mid ++ post)) ∧
    (∀ r r' : DependencyRecord, dedupKey r' = dedupKey r →
      dedupEntries [r, r'] = [r]) := by
  constructor
  · intro pre mid post r r' h
    exact dedupAux_splice [] pre mid post r r' h
  · intro r r' h
    have h2 := dedupAux_splice [] [] [] [] r r' h
    simpa [dedupEntries, dedupAux] using h2

/-- Claim C6 witness: two records sharing (name, version, license) but
with different urls; the first survives, the second is dropped. -/
theorem claim_C6_witness :
    dedupKey ⟨"a", "1.0", "u2", "mit"⟩ = dedupKey ⟨"a", "1.0", "u1", "mit"⟩ ∧
      dedupEntries [⟨"a", "1.0", "u1", "mit"⟩, ⟨"a", "1.0", "u2", "mit"⟩] =
        [⟨"a", "1.0", "u1", "mit"⟩] :=
  ⟨by decide, claim_C6.2 ⟨"a", "1.0", "u1", "mit"⟩ ⟨"a", "1.0", "u2", "mit"⟩ (by decide)⟩

/-! ### Claim C7: the final stable sort -/

theorem pyStrLt_irrefl (l : List Char) : pyStrLt l l = false := by
  induction l with
  | nil => rfl
  | cons c rest ih =>
    rw [pyStrLt, if_neg (lt_irrefl c), if_neg (lt_irrefl c)]
    exact ih

theorem pyStrLt_trans (a : List Char) : ∀ b c : List Char,
    pyStrLt a b = true → pyStrLt b c = true → pyStrLt a c = true := by
  induction a with
  | nil =>
    intro b c h1 h2
    rcases b with _ | ⟨y, ys⟩
    · exact absurd h1 (by simp [pyStrLt])
    · rcases c with _ | ⟨z, zs⟩
      · exact absurd h2 (by simp [pyStrLt])
      · rfl
  | cons x xs ih =>
    intro b c h1 h2
    rcases b with _ | ⟨y, ys⟩
    · exact absurd h1 (by simp [pyStrLt])
    rcases c with _ | ⟨z, zs⟩
    · exact absurd h2 (by simp [pyStrLt])
    simp only [pyStrLt] at h1 h2 ⊢
    by_cases hxy : x < y
    · by_cases hyz : y < z
      · simp [lt_trans hxy hyz]
      · by_cases hzy : z < y
        · simp [hyz, hzy] at h2
        · have e : y = z := le_antisymm (not_lt.mp hzy) (not_lt.mp hyz)
          subst e
          simp [hxy]
    · by_cases hyx : y < x
      · simp [hxy, hyx] at h1
      · have e : x = y := le_antisymm (not_lt.mp hyx) (not_lt.mp hxy)
        subst e
        by_cases hyz : x < z
        · simp [hyz]
        · by_cases hzy : z < x
          · simp [hyz, hzy] at h2
          · have e2 : x = z := le_antisymm (not_lt.mp hzy) (not_lt.mp hyz)
            subst e2
            simp only [if_neg (lt_irrefl x)] at h1 h2 ⊢
            exact ih ys zs h1 h2

theorem pyStrLt_total (a : List Char) : ∀ b : List Char,
    pyStrLt a b = true ∨ pyStrLt b a = true ∨ a = b := by
  induction a with
  | nil =>
    intro b
    rcases b with _ | ⟨y, ys⟩
    · right; right; rfl
    · left; rfl
  | cons x xs ih =>
    intro b
    rcases b with _ | ⟨y, ys⟩
    · right; left; rfl
    rcases lt_trichotomy x y with h | h | h
    · left; simp [pyStrLt, h]
    · subst h
      rcases ih ys with h2 | h2 | h2
      · left
        rw [pyStrLt, if_neg (lt_irrefl x), if_neg (lt_irrefl x)]
        exact h2
      · right; left
        rw [pyStrLt, if_neg (lt_irrefl x), if_neg (lt_irrefl x)]
        exact h2
      · right; right; rw [h2]
    · right; left; simp [pyStrLt, h]

theorem keyLT_irrefl (a : EnrichedRecord) : keyLT a a = false := by
  simp [keyLT, pyStrLt_irrefl]

theorem keyLT_of_key_eq {a b : EnrichedRecord} (h : sortKey a = sortKey b) :
    keyLT a b = false := by
  have h1 : (sortKey a).1 = (sortKey b).1 := by rw [h]
  have h2 : (sortKey a).2 = (sortKey b).2 := by rw [h]
  simp [keyLT, h1, h2, pyStrLt_irrefl]

theorem keyLT_trans {a b c : EnrichedRecord} (h1 : keyLT a b = true)
    (h2 : keyLT b c = true) : keyLT a c = true := by
  simp only [keyLT, Bool.or_eq_true, Bool.and_eq_true, decide_eq_true_eq] at h1 h2 ⊢
  rcases h1 with h1 | ⟨h1e, h1s⟩
  · rcases h2 with h2 | ⟨h2e, h2s⟩
    · exact Or.inl (lt_trans h1 h2)
    · exact Or.inl (h2e ▸ h1)
  · rcases h2 with h2 | ⟨h2e, h2s⟩
    · exact Or.inl (h1e ▸ h2)
    · exact Or.inr ⟨h1e.trans h2e, pyStrLt_trans _ _ _ h1s h2s⟩

theorem keyLT_asymm {a b : EnrichedRecord} (h : keyLT a b = true) :
    keyLT b a = false := by
  by_contra hc
  have hba : keyLT b a = true := by
    cases hx : keyLT b a
    · exact absurd hx hc
    · rfl
  have := keyLT_trans h hba
  rw [keyLT_irrefl] at this
  exact Bool.false_ne_true this

theorem keyLT_keyLE_trans {a b c : EnrichedRecord} (h1 : keyLT a b = true)
    (h2 : keyLE b c = true) : keyLT a c = true := by
  have h2' : keyLT c b = false := by
    simpa [keyLE] using h2
  simp only [keyLT, Bool.or_eq_true, Bool.and_eq_true, decide_eq_true_eq] at h1 h2' ⊢
  simp only [Bool.or_eq_false_iff, Bool.and_eq_false_iff, decide_eq_false_iff_not] at h2'
  rcases h2' with ⟨hcb, hcb2⟩
  rcases h1 with h1 | ⟨h1e, h1s⟩
  · left; omega
  · by_cases hbc : (sortKey b).1 < (sortKey c).1
    · left; omega
    · have hbceq : (sortKey b).1 = (sortKey c).1 := by omega
      right
      refine ⟨by omega, ?_⟩
      rcases hcb2 with hne | hns
      · exact absurd hbceq.symm hne
      · rcases pyStrLt_total (sortKey b).2 (sortKey c).2 with ht | ht | ht
        · exact pyStrLt_trans _ _ _ h1s ht
        · rw [hns] at ht
          exact absurd ht Bool.false_ne_true
        · exact ht ▸ h1s

theorem keyLT_imp_keyLE {a b : EnrichedRecord} (h : keyLT a b = true) :
    keyLE a b = true := by
  simp [keyLE, keyLT_asymm h]

theorem keyLE_of_not_keyLT {a b : EnrichedRecord} (h : keyLT a b = false) :
    keyLE b a = true := by
  simp [keyLE, h]

theorem keyLT_keyLE_trans_le {a b c : EnrichedRecord} (h1 : keyLT a b = true)
    (h2 : keyLE b c = true) : keyLE a c = true :=
  keyLT_imp_keyLE (keyLT_keyLE_trans h1 h2)

theorem mem_insertSorted (a x : EnrichedRecord) (l : List EnrichedRecord) :
    x ∈ insertSorted a l ↔ x = a ∨ x ∈ l := by
  induction l with
  | nil => simp [insertSorted]
  | cons b rest ih =>
    simp only [insertSorted]
    by_cases h : keyLT a b
    · simp [h]
    · rw [if_neg h]
      simp only [List.mem_cons, ih]
      tauto

theorem pairwise_insertSorted (a : EnrichedRecord) (l : List EnrichedRecord)
    (hl : l.Pairwise (fun x y => keyLE x y = true)) :
    (insertSorted a l).Pairwise (fun x y => keyLE x y = true) := by
  induction l with
  | nil => simp [insertSorted]
  | cons b rest ih =>
    rcases List.pairwise_cons.mp hl with ⟨hb, hrest⟩
    simp only [insertSorted]
    by_cases h : keyLT a b
    · rw [if_pos h]
      refine List.pairwise_cons.mpr ⟨?_, hl⟩
      intro x hx
      rcases List.mem_cons.mp hx with rfl | hx
      · exact keyLT_imp_keyLE h
      · exact keyLT_keyLE_trans_le h (hb x hx)
    · rw [if_neg h]
      refine List.pairwise_cons.mpr ⟨?_, ih hrest⟩
      intro x hx
      rcases (mem_insertSorted a x rest).mp hx with rfl | hx
      · exact keyLE_of_not_keyLT (by simpa using h)
      · exact hb x hx

theorem perm_insertSorted (a : EnrichedRecord) (l : List EnrichedRecord) :
    List.Perm (insertSorted a l) (a :: l) := by
  induction l with
  | nil => rfl
  | cons b rest ih =>
    simp only [insertSorted]
    by_cases h : keyLT a b
    · rw [if_pos h]
    · rw [if_neg h]
      exact (ih.cons b).trans (List.Perm.swap a b rest)

theorem pairwise_sortAux (l : List EnrichedRecord) :
    ∀ acc : List EnrichedRecord, acc.Pairwise (fun x y => keyLE x y = true) →
      (l.foldl (fun acc x => insertSorted x acc) acc).Pairwise
        (fun x y => keyLE x y = true) := by
  induction l with
  | nil => intro acc hacc; exact hacc
  | cons x rest ih =>
    intro acc hacc
    exact ih _ (pairwise_insertSorted x acc hacc)

theorem perm_sortAux (l : List EnrichedRecord) :
    ∀ acc : List EnrichedRecord,
      List.Perm (l.foldl (fun acc x => insertSorted x acc) acc) (acc ++ l) := by
  induction l with
  | nil => intro acc; simp
  | cons x rest ih =>
    intro acc
    refine (ih (insertSorted x acc)).trans ?_
    refine (((perm_insertSorted x acc).append_right rest).trans ?_)
    exact List.perm_middle.symm

theorem filter_insertSorted (a : EnrichedRecord) (l : List EnrichedRecord)
    (hl : l.Pairwise (fun x y => keyLE x y = true)) (k : Nat × List Char) :
    (insertSorted a l).filter (fun e => decide (sortKey e = k)) =
      if sortKey a = k then
        l.filter (fun e => decide (sortKey e = k)) ++ [a]
      else l.filter (fun e => decide (sortKey e = k)) := by
  induction l with
  | nil => by_cases h : sortKey a = k <;> simp [insertSorted, h]
  | cons b rest ih =>
    rcases List.pairwise_cons.mp hl with ⟨hb, hrest⟩
    simp only [insertSorted]
    by_cases hab : keyLT a b
    · rw [if_pos hab]
      by_cases ha : sortKey a = k
      · have hempty : (b :: rest).filter (fun e => decide (sortKey e = k)) = [] := by
          rw [List.filter_eq_nil_iff]
          intro x hx
          have hbx : keyLE b x = true := by
            rcases List.mem_cons.mp hx with rfl | hx2
            · exact keyLE_of_not_keyLT (keyLT_irrefl x)
            · exact hb x hx2
          have hax : keyLT a x = true := keyLT_keyLE_trans hab hbx
          intro hxk
          have hxa : sortKey a = sortKey x := by
            rw [ha, (decide_eq_true_eq.mp hxk)]
          rw [keyLT_of_key_eq hxa] at hax
          exact Bool.false_ne_true hax
        rw [if_pos ha]
        rw [List.filter_cons_of_pos (by simp [ha]), hempty]
        rfl
      · rw [if_neg ha]
        rw [List.filter_cons_of_neg (by simp [ha])]
    · rw [if_neg hab]
      by_cases hbk : sortKey b = k
      · rw [List.filter_cons_of_pos (by simp [hbk]), List.filter_cons_of_pos (by simp [hbk]),
          ih hrest]
        by_cases ha : sortKey a = k <;> simp [ha]
      · rw [List.filter_cons_of_neg (by simp [hbk]), List.filter_cons_of_neg (by simp [hbk]),
          ih hrest]

theorem filter_sortAux (l : List EnrichedRecord) (k : Nat × List Char) :
    ∀ acc : List EnrichedRecord, acc.Pairwise (fun x y => keyLE x y = true) →
      (l.foldl (fun acc x => insertSorted x acc) acc).filter
          (fun e => decide (sortKey e = k)) =
        acc.filter (fun e => decide (sortKey e = k)) ++
          l.filter (fun e => decide (sortKey e = k)) := by
  induction l with
  | nil => intro acc hacc; simp
  | cons x rest ih =>
    intro acc hacc
    rw [List.foldl_cons, ih _ (pairwise_insertSorted x acc hacc),
      filter_insertSorted x acc hacc k]
    by_cases hx : sortKey x = k
    · rw [if_pos hx, List.filter_cons_of_pos (by simp [hx])]
      simp
    · rw [if_neg hx, List.filter_cons_of_neg (by simp [hx])]

/-- Claim C7: the final list is stable-sorted by risk-category precedence
(High first, then Medium, then Low) and within equal precedence by
case-insensitive name: the sorted output is pairwise ordered under the
key comparison, is a permutation of its input, keeps the input order of
records with equal sort keys, and on the claim's concrete records
(High, "Bravo"), (High, "Alpha"), (Medium, "Zed") produces
[(High, "Alpha"), (High, "Bravo"), (Medium, "Zed")]. -/
theorem claim_C7 :
    (∀ l : List EnrichedRecord,
      (sortEntries l).Pairwise (fun x y => keyLE x y = true)) ∧
    (∀ l : List EnrichedRecord, List.Perm (sortEntries l) l) ∧
    (∀ (l : List EnrichedRecord) (k : Nat × List Char),
      (sortEntries l).filter (fun e => decide (sortKey e = k)) =
        l.filter (fun e => decide (sortKey e = k))) ∧
    sortEntries
        [⟨"Bravo", "1", "", "mit", "High", "", ""⟩,
         ⟨"Alpha", "1", "", "mit", "High", "", ""⟩,
         ⟨"Zed", "1", "", "mit", "Medium", "", ""⟩] =
      [⟨"Alpha", "1", "", "mit", "High", "", ""⟩,
       ⟨"Bravo", "1", "", "mit", "High", "", ""⟩,
       ⟨"Zed", "1", "", "mit", "Medium", "", ""⟩] := by
  refine ⟨?_, ?_, ?_, by decide⟩
  · intro l
    exact pairwise_sortAux l [] (List.Pairwise.nil)
  · intro l
    simpa using perm_sortAux l []
  · intro l k
    simpa using filter_sortAux l k [] (List.Pairwise.nil)

/-! ### Claim C3: the unknown-license override -/

theorem mem_sortEntries (x : EnrichedRecord) (l : List EnrichedRecord) :
    x ∈ sortEntries l ↔ x ∈ l := by
  have h := perm_sortAux l []
  rw [List.nil_append] at h
  exact h.mem_iff

/-- Claim C3 (counterexample): the override is keyed on the literal
normalized license string `"unknown"`, not on membership in the license
registry.  The license `"wtfpl"` is not in the registry, yet the record
carrying it is NOT forced to High: with no scorable URL its enriched risk
level is `"Low"` and its notes are empty.  (The pipeline is run with the
spec-modelled scorer `scorer0`; see claim C1 for why the unmodified
program cannot reach this point at all.) -/
theorem claim_C3_counterexample :
    LICENSE_MAPPING.lookup "wtfpl" = none ∧
      (mainCore scorer0 [⟨"examplepkg", "1.0.0", "", "wtfpl"⟩]).map
          (fun e => (e.risk_level, e.notes)) = [("Low", "")] := by
  constructor
  · decide
  · decide

/-- Claim C3 (amended): for every record processed by the aggregation
pipeline whose license string is exactly `"unknown"` — which is what
missing and empty licenses normalize to; other unrecognized licenses are
not overridden — the enriched record's risk level is High and its notes
field is exactly "Unknown License, Manual Review Required", regardless of
any score computed by the risk scorer (the scorer is universally
quantified). -/
theorem claim_C3 (assess : String → String → String × String)
    (entries : List DependencyRecord) (e : EnrichedRecord)
    (he : e ∈ mainCore assess entries) (hu : e.license = "unknown") :
    e.risk_level = "High" ∧
      e.notes = "Unknown License, Manual Review Required" := by
  have he2 : e ∈ (dedupEntries entries).map
      (fun d => enrichWith (assess d.url d.version) d) :=
    (mem_sortEntries e _).mp he
  rcases List.mem_map.mp he2 with ⟨d, _, rfl⟩
  have hd2 : d.license = "unknown" := hu
  simp [enrichWith, hd2]

/-- Claim C3 witness: a record with license `"unknown"` runs through the
pipeline (with the spec-modelled scorer) and comes out forced to High with
the fixed note. -/
theorem claim_C3_witness :
    ((⟨"somepkg", "1.0", "", "unknown", "High", "No License File Required",
        "Unknown License, Manual Review Required"⟩ : EnrichedRecord) ∈
        mainCore scorer0 [⟨"somepkg", "1.0", "", "unknown"⟩]) ∧
      (⟨"somepkg", "1.0", "", "unknown", "High", "No License File Required",
        "Unknown License, Manual Review Required"⟩ : EnrichedRecord).license =
        "unknown" ∧
      (⟨"somepkg", "1.0", "", "unknown", "High", "No License File Required",
        "Unknown License, Manual Review Required"⟩ : EnrichedRecord).risk_level =
        "High" ∧
      (⟨"somepkg", "1.0", "", "unknown", "High", "No License File Required",
        "Unknown License, Manual Review Required"⟩ : EnrichedRecord).notes =
        "Unknown License, Manual Review Required" :=
  ⟨by decide, by decide,
    claim_C3 scorer0 [⟨"somepkg", "1.0", "", "unknown"⟩] _ (by decide) (by decide)⟩

end CookSoup
